import Mathlib

/-!
Verification of the POS / inventory web client's cart, checkout, reporting and
inventory-filter logic.  The definitions below are a shallow embedding of the
TypeScript source:

* `Pos.handleAddToCart`, `Pos.handleUpdateQuantity`, `Pos.handleCheckout`
  mirror the handlers of the POS page (`src/pages/Pos.tsx`).
* `Cart.total` mirrors the total computation of the cart component.
* `Supabase.createSale`'s stock-reconciliation loop is mirrored by
  `Supabase.stockStep` / `Supabase.applyStockUpdates`, and the image-upload
  fallback by `Supabase.getPlaceholderImageUrl` / `Supabase.uploadProductImage`
  (`src/lib/supabase.ts`).
* `ProductForm.handleSubmitImageGate` mirrors the image-URL check inside the
  product form's submit handler.
* `Finance.getDateRange`, `Finance.filteredSales`, `Finance.financialMetrics`
  mirror the finance page's period filtering and metric computation.
* `Inventory.newProductsFilter` mirrors the inventory page's "new" filter.

JavaScript numbers holding money amounts are modelled as rationals (`ℚ`);
quantities, stock counts and millisecond timestamps are modelled as integers.
-/

/-- Product record as fetched from the backend (`Product` interface in
`src/lib/supabase.ts`).  `created_at` is the creation timestamp in
milliseconds. -/
structure Product where
  id : Int
  name : String
  image_url : String
  selling_price : ℚ
  cost_price : ℚ
  stock : Int
  low_stock_threshold : Int
  created_at : Int
  user_id : String
deriving DecidableEq

/-- Cart line (`CartItem` interface in `src/pages/Pos.tsx`): product reference,
quantity, and price/cost snapshots taken when the line was created. -/
structure CartItem where
  product_id : Int
  quantity : Int
  price_at_sale : ℚ
  cost_at_sale : ℚ
deriving DecidableEq

namespace Pos

/-- Result of a cart-mutating handler: the cart afterwards, and whether the
handler surfaced an error notice (the stock modal) instead of mutating. -/
structure HandlerResult where
  cart : List CartItem
  errorNotice : Bool
deriving DecidableEq

/-- Embedding of `handleAddToCart` from `src/pages/Pos.tsx`: looks up the
product in the catalog cache; a missing product is a silent no-op; if the
existing quantity plus one exceeds stock, surfaces the max-stock notice and
leaves the cart alone; otherwise increments the existing line or appends a new
line with quantity 1, snapshotting the current prices. -/
def handleAddToCart (products : List Product) (cart : List CartItem)
    (productId : Int) : HandlerResult :=
  match products.find? (fun p => p.id == productId) with
  | none => ⟨cart, false⟩
  | some product =>
    let existingItem := cart.find? (fun item => item.product_id == productId)
    let currentQuantity := match existingItem with
      | some item => item.quantity
      | none => 0
    if currentQuantity + 1 > product.stock then
      ⟨cart, true⟩
    else
      match existingItem with
      | some _ =>
        ⟨cart.map fun item =>
          if item.product_id == productId then
            { item with quantity := item.quantity + 1 }
          else item, false⟩
      | none =>
        ⟨cart ++ [{ product_id := productId, quantity := 1,
                    price_at_sale := product.selling_price,
                    cost_at_sale := product.cost_price }], false⟩

/-- Quantity-replacing map used by `handleUpdateQuantity` (the `setCart` call
of `src/pages/Pos.tsx`): every line for the product gets the new quantity,
other lines and the price/cost snapshots are untouched. -/
def setCartQuantity (cart : List CartItem) (productId quantity : Int) :
    List CartItem :=
  cart.map fun item =>
    if item.product_id == productId then { item with quantity := quantity }
    else item

/-- Embedding of `handleUpdateQuantity` from `src/pages/Pos.tsx`: a quantity
of zero or less removes the line; when the product is found in the catalog
cache and the new quantity exceeds its stock, surfaces the stock notice and
leaves the cart alone; otherwise (including when the product is absent from
the cache) replaces the quantity of the matching line. -/
def handleUpdateQuantity (products : List Product) (cart : List CartItem)
    (productId quantity : Int) : HandlerResult :=
  if quantity ≤ 0 then
    ⟨cart.filter (fun item => item.product_id != productId), false⟩
  else
    match products.find? (fun p => p.id == productId) with
    | some product =>
      if quantity > product.stock then ⟨cart, true⟩
      else ⟨setCartQuantity cart productId quantity, false⟩
    | none => ⟨setCartQuantity cart productId quantity, false⟩

end Pos

namespace Cart

/-- Embedding of the cart component's `total` (`src/components/ui/Cart.tsx`):
reduce over the lines accumulating `price_at_sale * quantity` from 0. -/
def total (cart : List CartItem) : ℚ :=
  cart.foldl (fun sum item => sum + item.price_at_sale * (item.quantity : ℚ)) 0

end Cart

namespace Supabase

/-- Sale record as inserted by `createSale` in `src/lib/supabase.ts`. -/
structure Sale where
  user_id : String
  total_amount : ℚ
  total_cost : ℚ
deriving DecidableEq

/-- Embedding of the sale-record insertion of `createSale`: the inserted row
carries the owner and the totals passed by the caller. -/
def createSale (userId : String) (total cost : ℚ) : Sale :=
  { user_id := userId, total_amount := total, total_cost := cost }

/-- Embedding of one iteration of `createSale`'s stock-update loop: fetch the
product row by id (a failed fetch skips the item), compute
`newStock = max(0, stock - quantity)` and write it back to the row with that
id. -/
def stockStep (products : List Product) (item : CartItem) : List Product :=
  match products.find? (fun p => p.id == item.product_id) with
  | none => products
  | some product =>
    let newStock := max 0 (product.stock - item.quantity)
    products.map fun p =>
      if p.id == item.product_id then { p with stock := newStock } else p

/-- Embedding of the whole stock-update loop of `createSale`: the sale items
are processed in order, one product at a time. -/
def applyStockUpdates (products : List Product) (saleItems : List CartItem) :
    List Product :=
  saleItems.foldl stockStep products

/-- Embedding of `getPlaceholderImageUrl` from `src/lib/supabase.ts`.  The
source also extracts the file extension, but never uses it: the text and the
colors are fixed, so the resulting URL is the same for every filename. -/
def getPlaceholderImageUrl (_filename : String) : String :=
  let placeholderText := "Product+Image"
  let bgColor := "e2e8f0"
  let textColor := "64748b"
  "https://placehold.co/300x300/" ++ bgColor ++ "/" ++ textColor
    ++ "?text=" ++ placeholderText

/-- Outcome of the storage backend as observed by `uploadProductImage`: a
successful upload with a public URL, an upload error, a missing public URL, or
an exception that survived the retries.  In the last case `encodedMsg` stands
for `encodeURIComponent(message).substring(0, 50)` computed by the source from
the error message. -/
inductive UploadBackend where
  | ok (publicUrl : String)
  | uploadErr
  | noPublicUrl
  | thrown (encodedMsg : String)
deriving DecidableEq

/-- Embedding of the result of `uploadProductImage` from `src/lib/supabase.ts`
as a function of the backend outcome: an upload error or a missing public URL
yields the generated placeholder URL, and an exception that survives the
retries yields the `Upload+Failed` placeholder URL; the function never
throws. -/
def uploadProductImage (outcome : UploadBackend) (filename : String) : String :=
  match outcome with
  | .ok publicUrl => publicUrl
  | .uploadErr => getPlaceholderImageUrl filename
  | .noPublicUrl => getPlaceholderImageUrl filename
  | .thrown encodedMsg =>
    "https://placehold.co/300x300/e2e8f0/64748b?text=Upload+Failed:+"
      ++ encodedMsg

end Supabase

namespace ProductForm

/-- Helper for `strIncludes`: tests whether the pattern occurs at some
position of the list. -/
def includesAux (pat : List Char) : List Char → Bool
  | [] => pat.isEmpty
  | c :: cs => pat.isPrefixOf (c :: cs) || includesAux pat cs

/-- Model of JavaScript's `String.prototype.includes`. -/
def strIncludes (s pat : String) : Bool :=
  includesAux pat.toList s.toList

/-- Outcome of the product form's submit handler with respect to the image
URL: either the save is aborted with a form error, or the product
create/update proceeds with the given URL. -/
inductive SubmitOutcome where
  | aborted
  | savedWith (imageUrl : String)
deriving DecidableEq

/-- Embedding of the image-URL check inside `handleSubmit` of
`src/components/ui/ProductForm.tsx`: the save is aborted when the uploaded
URL is falsy (for a string: empty) or contains the substring `placeholder`;
otherwise the product create/update proceeds with that URL. -/
def handleSubmitImageGate (imageUrl : String) : SubmitOutcome :=
  if imageUrl == "" || strIncludes imageUrl "placeholder" then
    .aborted
  else
    .savedWith imageUrl

end ProductForm

namespace Pos

/-- Embedding of `handleCheckout` from `src/pages/Pos.tsx`: a missing user or
an empty cart is a no-op; otherwise the totals are computed by summing the
cart lines, the sale is created, every product with a cart line has its cached
stock decreased by the line's quantity, and the cart is cleared. -/
def handleCheckout (user : Option String) (products : List Product)
    (cart : List CartItem) :
    Option (Supabase.Sale × List Product × List CartItem) :=
  match user with
  | none => none
  | some userId =>
    if cart.isEmpty then none
    else
      let totalAmount :=
        cart.foldl (fun sum item => sum + item.price_at_sale * (item.quantity : ℚ)) 0
      let totalCost :=
        cart.foldl (fun sum item => sum + item.cost_at_sale * (item.quantity : ℚ)) 0
      let sale := Supabase.createSale userId totalAmount totalCost
      let updatedProducts := products.map fun product =>
        match cart.find? (fun item => item.product_id == product.id) with
        | some cartItem => { product with stock := product.stock - cartItem.quantity }
        | none => product
      some (sale, updatedProducts, [])

end Pos

namespace Finance

/-- Sale line item as fetched by `getSales` (interface `SaleItem` on the
finance page). -/
structure SaleItem where
  id : Int
  product_id : Int
  quantity : Int
  price_at_sale : ℚ
  cost_at_sale : ℚ
deriving DecidableEq

/-- Sale record as fetched by `getSales` (interface `Sale` on the finance
page).  `created_at` is the creation timestamp in milliseconds. -/
structure Sale where
  id : Int
  total_amount : ℚ
  total_cost : ℚ
  created_at : Int
  sale_items : List SaleItem
deriving DecidableEq

/-- Wall-clock instant in the finance page's local calendar: a civil day
number (days since 1970-01-01) and the millisecond offset within that day
(intended range `[0, 86400000)`). -/
structure DateTime where
  day : Int
  msOfDay : Int
deriving DecidableEq

/-- Millisecond timestamp of an instant (what comparing two JavaScript `Date`
values compares). -/
def DateTime.toMs (d : DateTime) : Int :=
  d.day * 86400000 + d.msOfDay

/-- Day of week of a civil day number, 0 = Sunday (JavaScript's
`Date.prototype.getDay`); day 0 (1970-01-01) was a Thursday. -/
def dayOfWeek (z : Int) : Int :=
  (z + 4) % 7

/-- Civil day number of a proleptic-Gregorian date (year, month 1-12,
day 1-31); the standard era-based conversion. -/
def daysFromCivil (y m d : Int) : Int :=
  let yAdj := if m ≤ 2 then y - 1 else y
  let era := yAdj / 400
  let yoe := yAdj - era * 400
  let mp := (m + 9) % 12
  let doy := (153 * mp + 2) / 5 + d - 1
  let doe := yoe * 365 + yoe / 4 - yoe / 100 + doy
  era * 146097 + doe - 719468

/-- Proleptic-Gregorian date (year, month 1-12, day 1-31) of a civil day
number; inverse of `daysFromCivil`. -/
def civilFromDays (z : Int) : Int × Int × Int :=
  let zAdj := z + 719468
  let era := zAdj / 146097
  let doe := zAdj - era * 146097
  let yoe := (doe - doe / 1460 + doe / 36524 - doe / 146096) / 365
  let yr := yoe + era * 400
  let doy := doe - (365 * yoe + yoe / 4 - yoe / 100)
  let mp := (5 * doy + 2) / 153
  let dom := doy - (153 * mp + 2) / 5 + 1
  let mon := if mp < 10 then mp + 3 else mp - 9
  (if mon ≤ 2 then yr + 1 else yr, mon, dom)

/-- Civil day number of the first day of the month containing the given day
(JavaScript's `new Date(getFullYear(), getMonth(), 1)`). -/
def firstDayOfMonth (z : Int) : Int :=
  let c := civilFromDays z
  daysFromCivil c.1 c.2.1 1

/-- Embedding of `getDateRange` from the finance page: maps the selected
period name and the current instant to the `(start, end)` pair the source
builds with local-calendar `Date` arithmetic.  The `23:59:59.999` end
instants of the source become a millisecond offset of 86399999. -/
def getDateRange (period : String) (now : DateTime) : DateTime × DateTime :=
  let today : DateTime := ⟨now.day, 0⟩
  match period with
  | "today" => (today, now)
  | "yesterday" => (⟨now.day - 1, 0⟩, ⟨now.day - 1, 86399999⟩)
  | "this_week" => (⟨now.day - dayOfWeek now.day, 0⟩, now)
  | "last_week" =>
    let startOfLastWeek := now.day - dayOfWeek now.day - 7
    (⟨startOfLastWeek, 0⟩, ⟨startOfLastWeek + 6, 86399999⟩)
  | "this_month" => (⟨firstDayOfMonth now.day, 0⟩, now)
  | "last_month" =>
    let f := firstDayOfMonth now.day
    (⟨firstDayOfMonth (f - 1), 0⟩, ⟨f - 1, 86399999⟩)
  | _ => (today, now)

/-- Embedding of the `filteredSales` memo of the finance page: keep the sales
whose creation timestamp satisfies `start ≤ t` and `t ≤ end` for the selected
period's range. -/
def filteredSales (sales : List Sale) (selectedPeriod : String)
    (now : DateTime) : List Sale :=
  let r := getDateRange selectedPeriod now
  sales.filter fun sale =>
    decide (r.1.toMs ≤ sale.created_at ∧ sale.created_at ≤ r.2.toMs)

/-- Financial metrics computed by the finance page. -/
structure FinancialMetrics where
  totalRevenue : ℚ
  totalCost : ℚ
  totalProfit : ℚ
  profitMargin : ℚ
deriving DecidableEq

/-- Embedding of the `financialMetrics` memo of the finance page: revenue and
cost are sums over the filtered sales, profit is their difference, and the
margin is `profit / revenue * 100` guarded by `revenue > 0`, else 0. -/
def financialMetrics (fs : List Sale) : FinancialMetrics :=
  let totalRevenue := fs.foldl (fun sum sale => sum + sale.total_amount) 0
  let totalCost := fs.foldl (fun sum sale => sum + sale.total_cost) 0
  let totalProfit := totalRevenue - totalCost
  let profitMargin :=
    if 0 < totalRevenue then totalProfit / totalRevenue * 100 else 0
  { totalRevenue := totalRevenue, totalCost := totalCost,
    totalProfit := totalProfit, profitMargin := profitMargin }

end Finance

namespace Inventory

/-- Embedding of the `new` branch of the inventory page's filter effect: sort
the catalog by creation time descending and keep the first
`max(ceil(length / 5), 5)` products.  The source computes
`Math.ceil(length * 0.2)` with binary floating point; for every list length
the product `length * 0.2` rounds to a double within a quarter unit in the
last place of `length / 5`, so its ceiling coincides with the exact
`⌈length / 5⌉ = (length + 4) / 5` used here. -/
def newProductsFilter (allProducts : List Product) : List Product :=
  let sortedByDate :=
    allProducts.mergeSort fun a b => decide (b.created_at ≤ a.created_at)
  let newCount := max ((allProducts.length + 4) / 5) 5
  sortedByDate.take newCount

end Inventory

/-- Demo catalog used by the concrete witnesses: product 1 priced 10 (cost 6)
with stock 5, product 2 priced 5 (cost 3) with stock 4. -/
def demoProducts : List Product :=
  [⟨1, "A", "", 10, 6, 5, 1, 0, "u"⟩, ⟨2, "B", "", 5, 3, 4, 1, 0, "u"⟩]

/-- Demo cart used by the concrete witnesses: two units of product 1 at price
10 (cost 6) and one unit of product 2 at price 5 (cost 3). -/
def demoCart : List CartItem :=
  [⟨1, 2, 10, 6⟩, ⟨2, 1, 5, 3⟩]

/-- Demo catalog of exactly 20 products with distinct creation times. -/
def demoCatalog : List Product :=
  (List.range 20).map fun i => ⟨Int.ofNat i, "P", "", 1, 1, 1, 1, Int.ofNat i, "u"⟩

/-! Helper lemmas shared by several theorems. -/

theorem foldl_add_eq_sum {α : Type} (f : α → ℚ) (l : List α) (a : ℚ) :
    l.foldl (fun s x => s + f x) a = a + (l.map f).sum := by
  induction l generalizing a with
  | nil => simp
  | cons x xs ih => simp [ih, add_assoc]

theorem map_mul_comm_helper {α : Type} (f g : α → ℚ) (l : List α) :
    (l.map fun x => f x * g x) = l.map fun x => g x * f x :=
  List.map_congr_left fun _ _ => mul_comm _ _

/-- C1: for every authenticated user and non-empty cart, checkout produces a
sale whose `total_amount` is the sum over cart lines of
`quantity * price_at_sale` and whose `total_cost` is the sum of
`quantity * cost_at_sale`, clears the cart, and decreases the cached stock of
every product that has a cart line by exactly that line's quantity (products
without a cart line are unchanged). -/
theorem checkout_creates_sale_and_reconciles_stock
    (userId : String) (products : List Product) (cart : List CartItem)
    (hcart : cart ≠ []) :
    ∃ sale updatedProducts,
      Pos.handleCheckout (some userId) products cart =
        some (sale, updatedProducts, []) ∧
      sale.total_amount =
        (cart.map fun item => (item.quantity : ℚ) * item.price_at_sale).sum ∧
      sale.total_cost =
        (cart.map fun item => (item.quantity : ℚ) * item.cost_at_sale).sum ∧
      (∀ p ∈ products, ∀ item,
        cart.find? (fun i => i.product_id == p.id) = some item →
        { p with stock := p.stock - item.quantity } ∈ updatedProducts) ∧
      (∀ p ∈ products, cart.find? (fun i => i.product_id == p.id) = none →
        p ∈ updatedProducts) := by
  have hne : cart.isEmpty = false := by
    cases cart with
    | nil => exact absurd rfl hcart
    | cons a l => rfl
  refine ⟨Supabase.createSale userId
      (cart.foldl (fun sum item => sum + item.price_at_sale * (item.quantity : ℚ)) 0)
      (cart.foldl (fun sum item => sum + item.cost_at_sale * (item.quantity : ℚ)) 0),
    products.map (fun product =>
      match cart.find? (fun item => item.product_id == product.id) with
      | some cartItem => { product with stock := product.stock - cartItem.quantity }
      | none => product), ?_, ?_, ?_, ?_, ?_⟩
  · simp [Pos.handleCheckout, hne]
  · simp only [Supabase.createSale]
    rw [map_mul_comm_helper (fun item : CartItem => (item.quantity : ℚ))
      (fun item : CartItem => item.price_at_sale), foldl_add_eq_sum, zero_add]
  · simp only [Supabase.createSale]
    rw [map_mul_comm_helper (fun item : CartItem => (item.quantity : ℚ))
      (fun item : CartItem => item.cost_at_sale), foldl_add_eq_sum, zero_add]
  · intro p hp item hfind
    have hm := List.mem_map_of_mem (fun product =>
      match cart.find? (fun i => i.product_id == product.id) with
      | some cartItem => { product with stock := product.stock - cartItem.quantity }
      | none => product) hp
    simpa [hfind] using hm
  · intro p hp hfind
    have hm := List.mem_map_of_mem (fun product =>
      match cart.find? (fun i => i.product_id == product.id) with
      | some cartItem => { product with stock := product.stock - cartItem.quantity }
      | none => product) hp
    simpa [hfind] using hm

/-- Witness for C1 at the cart of the specification example: two units of
product 1 at price 10 (cost 6) and one unit of product 2 at price 5 (cost 3)
produce a sale with `total_amount = 25`, `total_cost = 15`, an empty cart, and
cached stocks 5 - 2 = 3 and 4 - 1 = 3. -/
theorem checkout_creates_sale_and_reconciles_stock_witness :
    (demoCart ≠ []) ∧
    (∃ sale updatedProducts,
      Pos.handleCheckout (some "u") demoProducts demoCart =
        some (sale, updatedProducts, []) ∧
      sale.total_amount =
        (demoCart.map fun item => (item.quantity : ℚ) * item.price_at_sale).sum ∧
      sale.total_cost =
        (demoCart.map fun item => (item.quantity : ℚ) * item.cost_at_sale).sum ∧
      (∀ p ∈ demoProducts, ∀ item,
        demoCart.find? (fun i => i.product_id == p.id) = some item →
        { p with stock := p.stock - item.quantity } ∈ updatedProducts) ∧
      (∀ p ∈ demoProducts, demoCart.find? (fun i => i.product_id == p.id) = none →
        p ∈ updatedProducts)) ∧
    Pos.handleCheckout (some "u") demoProducts demoCart =
      some (⟨"u", 25, 15⟩,
        [⟨1, "A", "", 10, 6, 3, 1, 0, "u"⟩, ⟨2, "B", "", 5, 3, 3, 1, 0, "u"⟩],
        []) := by
  refine ⟨by simp [demoCart], ?_, ?_⟩
  · exact checkout_creates_sale_and_reconciles_stock "u" demoProducts demoCart
      (by simp [demoCart])
  · norm_num [Pos.handleCheckout, Supabase.createSale, demoProducts, demoCart]

/-- C5: the cart total equals the sum over all lines of
`quantity * price_at_sale`, and the total is invariant under permutation of
the lines. -/
theorem cart_total_eq_sum_and_perm_invariant
    (cart cart' : List CartItem) (hperm : cart.Perm cart') :
    Cart.total cart =
      (cart.map fun item => (item.quantity : ℚ) * item.price_at_sale).sum ∧
    Cart.total cart = Cart.total cart' := by
  have key : ∀ l : List CartItem, Cart.total l =
      (l.map fun item => (item.quantity : ℚ) * item.price_at_sale).sum := by
    intro l
    unfold Cart.total
    rw [map_mul_comm_helper (fun item : CartItem => (item.quantity : ℚ))
      (fun item : CartItem => item.price_at_sale), foldl_add_eq_sum, zero_add]
  exact ⟨key cart, by rw [key cart, key cart']; exact (hperm.map _).sum_eq⟩

/-- Witness for C5: the demo cart's total (25) equals the mapped sum and is
unchanged when its two lines are swapped. -/
theorem cart_total_eq_sum_and_perm_invariant_witness :
    (Cart.total demoCart =
      (demoCart.map fun item => (item.quantity : ℚ) * item.price_at_sale).sum ∧
     Cart.total demoCart = Cart.total [⟨2, 1, 5, 3⟩, ⟨1, 2, 10, 6⟩]) ∧
    Cart.total demoCart = 25 := by
  refine ⟨cart_total_eq_sum_and_perm_invariant demoCart
    [⟨2, 1, 5, 3⟩, ⟨1, 2, 10, 6⟩] (List.Perm.swap _ _ _), ?_⟩
  norm_num [Cart.total, demoCart]

/-- C2: for a product `P` present in the catalog cache and a cart holding a
line for `P`, `setQuantity` removes the line entirely when the quantity is
≤ 0; when the (positive) quantity exceeds `P`'s stock it leaves the cart
unchanged and surfaces the failure notice; and when `0 < quantity ≤ P.stock`
it replaces the line's quantity with exactly that value, leaving the price and
cost snapshots and all other lines untouched. -/
theorem setQuantity_spec
    (products : List Product) (cart : List CartItem) (productId quantity : Int)
    (P : Product) (hP : products.find? (fun p => p.id == productId) = some P)
    (line : CartItem) (hline : line ∈ cart)
    (hlid : line.product_id = productId) :
    (quantity ≤ 0 →
      Pos.handleUpdateQuantity products cart productId quantity =
        ⟨cart.filter (fun item => item.product_id != productId), false⟩ ∧
      ∀ item ∈ (Pos.handleUpdateQuantity products cart productId quantity).cart,
        item.product_id ≠ productId) ∧
    (0 < quantity → P.stock < quantity →
      Pos.handleUpdateQuantity products cart productId quantity = ⟨cart, true⟩) ∧
    (0 < quantity → quantity ≤ P.stock →
      (Pos.handleUpdateQuantity products cart productId quantity).errorNotice = false ∧
      { line with quantity := quantity } ∈
        (Pos.handleUpdateQuantity products cart productId quantity).cart ∧
      (∀ item ∈ (Pos.handleUpdateQuantity products cart productId quantity).cart,
        item.product_id = productId → item.quantity = quantity) ∧
      (∀ item ∈ cart, item.product_id ≠ productId →
        item ∈ (Pos.handleUpdateQuantity products cart productId quantity).cart)) := by
  refine ⟨?_, ?_, ?_⟩
  · intro hq
    have hres : Pos.handleUpdateQuantity products cart productId quantity =
        ⟨cart.filter (fun item => item.product_id != productId), false⟩ := by
      simp [Pos.handleUpdateQuantity, hq]
    refine ⟨hres, ?_⟩
    rw [hres]
    intro item hmem
    have := (List.mem_filter.mp hmem).2
    simpa using this
  · intro hq0 hs
    have hq : ¬ quantity ≤ 0 := by omega
    simp [Pos.handleUpdateQuantity, hq, hP, hs]
  · intro hq0 hqle
    have hq : ¬ quantity ≤ 0 := by omega
    have hngt : ¬ quantity > P.stock := by omega
    have hres : Pos.handleUpdateQuantity products cart productId quantity =
        ⟨Pos.setCartQuantity cart productId quantity, false⟩ := by
      simp [Pos.handleUpdateQuantity, hq, hP, hngt]
    rw [hres]
    refine ⟨rfl, ?_, ?_, ?_⟩
    · have hm := List.mem_map_of_mem (fun item =>
        if item.product_id == productId then { item with quantity := quantity }
        else item) hline
      simpa [Pos.setCartQuantity, hlid] using hm
    · intro item hmem hid
      obtain ⟨it0, hit0, heq⟩ := List.mem_map.mp hmem
      by_cases h0 : it0.product_id == productId
      · rw [if_pos h0] at heq
        rw [← heq]
      · rw [if_neg h0] at heq
        rw [← heq] at hid
        exact absurd hid (by simpa using h0)
    · intro item hmem hne
      have hm := List.mem_map_of_mem (fun item =>
        if item.product_id == productId then { item with quantity := quantity }
        else item) hmem
      simpa [Pos.setCartQuantity, hne] using hm

/-- Witness for C2 at the demo data: product 1 (stock 5) is in the catalog,
the demo cart holds a line for it, and setting the quantity to 3 yields a
cart where the line has quantity exactly 3 with untouched snapshots. -/
theorem setQuantity_spec_witness :
    (demoProducts.find? (fun p => p.id == 1) =
      some ⟨1, "A", "", 10, 6, 5, 1, 0, "u"⟩) ∧
    ((⟨1, 2, 10, 6⟩ : CartItem) ∈ demoCart) ∧
    (((3 : Int) ≤ 0 →
      Pos.handleUpdateQuantity demoProducts demoCart 1 3 =
        ⟨demoCart.filter (fun item => item.product_id != 1), false⟩ ∧
      ∀ item ∈ (Pos.handleUpdateQuantity demoProducts demoCart 1 3).cart,
        item.product_id ≠ 1) ∧
    ((0 : Int) < 3 → (⟨1, "A", "", 10, 6, 5, 1, 0, "u"⟩ : Product).stock < 3 →
      Pos.handleUpdateQuantity demoProducts demoCart 1 3 = ⟨demoCart, true⟩) ∧
    ((0 : Int) < 3 → (3 : Int) ≤ (⟨1, "A", "", 10, 6, 5, 1, 0, "u"⟩ : Product).stock →
      (Pos.handleUpdateQuantity demoProducts demoCart 1 3).errorNotice = false ∧
      { (⟨1, 2, 10, 6⟩ : CartItem) with quantity := 3 } ∈
        (Pos.handleUpdateQuantity demoProducts demoCart 1 3).cart ∧
      (∀ item ∈ (Pos.handleUpdateQuantity demoProducts demoCart 1 3).cart,
        item.product_id = 1 → item.quantity = 3) ∧
      (∀ item ∈ demoCart, item.product_id ≠ 1 →
        item ∈ (Pos.handleUpdateQuantity demoProducts demoCart 1 3).cart))) ∧
    Pos.handleUpdateQuantity demoProducts demoCart 1 3 =
      ⟨[⟨1, 3, 10, 6⟩, ⟨2, 1, 5, 3⟩], false⟩ := by
  refine ⟨rfl, List.mem_cons_self _ _, ?_, ?_⟩
  · exact setQuantity_spec demoProducts demoCart 1 3
      ⟨1, "A", "", 10, 6, 5, 1, 0, "u"⟩ rfl ⟨1, 2, 10, 6⟩
      (List.mem_cons_self _ _) rfl
  · norm_num [Pos.handleUpdateQuantity, Pos.setCartQuantity, demoProducts, demoCart]

/-- C10: when the cart holds a line whose product is absent from the catalog
cache, `setQuantity` with any positive quantity skips the stock check and
sets the line's quantity unconditionally, reporting no failure notice. -/
theorem setQuantity_missing_product
    (products : List Product) (cart : List CartItem) (productId quantity : Int)
    (hnone : products.find? (fun p => p.id == productId) = none)
    (hq : 0 < quantity) :
    Pos.handleUpdateQuantity products cart productId quantity =
      ⟨Pos.setCartQuantity cart productId quantity, false⟩ ∧
    (Pos.handleUpdateQuantity products cart productId quantity).errorNotice = false ∧
    (∀ item ∈ (Pos.handleUpdateQuantity products cart productId quantity).cart,
      item.product_id = productId → item.quantity = quantity) ∧
    (∀ item ∈ cart, item.product_id = productId →
      { item with quantity := quantity } ∈
        (Pos.handleUpdateQuantity products cart productId quantity).cart) := by
  have hq' : ¬ quantity ≤ 0 := by omega
  have hres : Pos.handleUpdateQuantity products cart productId quantity =
      ⟨Pos.setCartQuantity cart productId quantity, false⟩ := by
    simp [Pos.handleUpdateQuantity, hq', hnone]
  rw [hres]
  refine ⟨rfl, rfl, ?_, ?_⟩
  · intro item hmem hid
    obtain ⟨it0, hit0, heq⟩ := List.mem_map.mp hmem
    by_cases h0 : it0.product_id == productId
    · rw [if_pos h0] at heq
      rw [← heq]
    · rw [if_neg h0] at heq
      rw [← heq] at hid
      exact absurd hid (by simpa using h0)
  · intro item hmem hid
    have hm := List.mem_map_of_mem (fun item =>
      if item.product_id == productId then { item with quantity := quantity }
      else item) hmem
    simpa [Pos.setCartQuantity, hid] using hm

/-- Witness for C10: with an empty catalog cache the demo cart's line for
product 1 is set to quantity 999 without any stock check or failure notice. -/
theorem setQuantity_missing_product_witness :
    (([] : List Product).find? (fun p => p.id == 1) = none) ∧
    ((0 : Int) < 999) ∧
    (Pos.handleUpdateQuantity [] demoCart 1 999 =
      ⟨Pos.setCartQuantity demoCart 1 999, false⟩ ∧
    (Pos.handleUpdateQuantity [] demoCart 1 999).errorNotice = false ∧
    (∀ item ∈ (Pos.handleUpdateQuantity [] demoCart 1 999).cart,
      item.product_id = 1 → item.quantity = 999) ∧
    (∀ item ∈ demoCart, item.product_id = 1 →
      { item with quantity := 999 } ∈
        (Pos.handleUpdateQuantity [] demoCart 1 999).cart)) ∧
    Pos.handleUpdateQuantity [] demoCart 1 999 =
      ⟨[⟨1, 999, 10, 6⟩, ⟨2, 1, 5, 3⟩], false⟩ := by
  refine ⟨rfl, by norm_num, ?_, ?_⟩
  · exact setQuantity_missing_product [] demoCart 1 999 rfl (by norm_num)
  · norm_num [Pos.handleUpdateQuantity, Pos.setCartQuantity, demoCart]

/-- C3: for a product `P` present in the catalog cache, `addProduct` creates a
new line with quantity 1 snapshotting `P`'s current prices when no line
exists (and `P` has stock), increments the existing line's quantity by 1 when
one does, and is a no-op surfacing the notice whenever the resulting quantity
would exceed `P`'s stock; it preserves at-most-one-line-per-product, and with
stock 0 the product can never be added. -/
theorem addProduct_spec
    (products : List Product) (cart : List CartItem) (productId : Int)
    (P : Product)
    (hP : products.find? (fun p => p.id == productId) = some P) :
    (cart.find? (fun item => item.product_id == productId) = none →
      P.stock < 1 →
      Pos.handleAddToCart products cart productId = ⟨cart, true⟩) ∧
    (cart.find? (fun item => item.product_id == productId) = none →
      1 ≤ P.stock →
      Pos.handleAddToCart products cart productId =
        ⟨cart ++ [⟨productId, 1, P.selling_price, P.cost_price⟩], false⟩) ∧
    (∀ existing,
      cart.find? (fun item => item.product_id == productId) = some existing →
      (P.stock < existing.quantity + 1 →
        Pos.handleAddToCart products cart productId = ⟨cart, true⟩) ∧
      (existing.quantity + 1 ≤ P.stock →
        Pos.handleAddToCart products cart productId =
          ⟨cart.map fun item =>
            if item.product_id == productId then
              { item with quantity := item.quantity + 1 }
            else item, false⟩)) ∧
    (cart.Pairwise (fun a b => a.product_id ≠ b.product_id) →
      (Pos.handleAddToCart products cart productId).cart.Pairwise
        (fun a b => a.product_id ≠ b.product_id)) ∧
    (P.stock = 0 → (∀ item ∈ cart, 0 ≤ item.quantity) →
      Pos.handleAddToCart products cart productId = ⟨cart, true⟩) := by
  refine ⟨?_, ?_, ?_, ?_, ?_⟩
  · intro hfind hs
    simp [Pos.handleAddToCart, hP, hfind, hs]
  · intro hfind hs
    have : ¬ P.stock < 1 := by omega
    simp [Pos.handleAddToCart, hP, hfind, this]
  · intro existing hfind
    constructor
    · intro hs
      have : existing.quantity + 1 > P.stock := by omega
      simp [Pos.handleAddToCart, hP, hfind, this]
    · intro hs
      have : ¬ (existing.quantity + 1 > P.stock) := by omega
      simp [Pos.handleAddToCart, hP, hfind, this]
  · intro hpw
    cases hfind : cart.find? (fun item => item.product_id == productId) with
    | none =>
      by_cases hs : P.stock < 1
      · simpa [Pos.handleAddToCart, hP, hfind, hs] using hpw
      · have hres : Pos.handleAddToCart products cart productId =
            ⟨cart ++ [⟨productId, 1, P.selling_price, P.cost_price⟩], false⟩ := by
          simp [Pos.handleAddToCart, hP, hfind, hs]
        rw [hres]
        rw [List.pairwise_append]
        refine ⟨hpw, by simp, ?_⟩
        intro a ha b hb
        have hane := List.find?_eq_none.mp hfind a ha
        have hbid : b.product_id = productId := by
          simp at hb
          rw [hb]
        rw [hbid]
        simpa using hane
    | some existing =>
      by_cases hs : existing.quantity + 1 > P.stock
      · simpa [Pos.handleAddToCart, hP, hfind, hs] using hpw
      · have hres : Pos.handleAddToCart products cart productId =
            ⟨cart.map fun item =>
              if item.product_id == productId then
                { item with quantity := item.quantity + 1 }
              else item, false⟩ := by
          simp [Pos.handleAddToCart, hP, hfind, hs]
        rw [hres]
        have hid : ∀ x : CartItem,
            ((if x.product_id == productId then
              { x with quantity := x.quantity + 1 } else x) : CartItem).product_id =
              x.product_id := by
          intro x
          by_cases h0 : x.product_id == productId
          · rw [if_pos h0]
          · rw [if_neg h0]
        refine List.pairwise_map.mpr (hpw.imp ?_)
        intro a b hab
        rw [hid a, hid b]
        exact hab
  · intro hs0 hpos
    cases hfind : cart.find? (fun item => item.product_id == productId) with
    | none =>
      have : P.stock < 1 := by omega
      simp [Pos.handleAddToCart, hP, hfind, this]
    | some existing =>
      have hqty : 0 ≤ existing.quantity :=
        hpos existing (List.mem_of_find?_eq_some hfind)
      have : existing.quantity + 1 > P.stock := by omega
      simp [Pos.handleAddToCart, hP, hfind, this]

/-- Witness for C3 at the demo data: product 2 (stock 4, price 5, cost 3) is
in the catalog; adding it to the singleton cart holding only product 1
appends a fresh line with quantity 1 and the price/cost snapshots. -/
theorem addProduct_spec_witness :
    (demoProducts.find? (fun p => p.id == 2) =
      some ⟨2, "B", "", 5, 3, 4, 1, 0, "u"⟩) ∧
    (([⟨1, 2, 10, 6⟩] : List CartItem).find? (fun item => item.product_id == 2) = none →
      (⟨2, "B", "", 5, 3, 4, 1, 0, "u"⟩ : Product).stock < 1 →
      Pos.handleAddToCart demoProducts [⟨1, 2, 10, 6⟩] 2 = ⟨[⟨1, 2, 10, 6⟩], true⟩) ∧
    (([⟨1, 2, 10, 6⟩] : List CartItem).find? (fun item => item.product_id == 2) = none →
      1 ≤ (⟨2, "B", "", 5, 3, 4, 1, 0, "u"⟩ : Product).stock →
      Pos.handleAddToCart demoProducts [⟨1, 2, 10, 6⟩] 2 =
        ⟨[⟨1, 2, 10, 6⟩] ++
          [⟨2, 1, (⟨2, "B", "", 5, 3, 4, 1, 0, "u"⟩ : Product).selling_price,
            (⟨2, "B", "", 5, 3, 4, 1, 0, "u"⟩ : Product).cost_price⟩], false⟩) ∧
    Pos.handleAddToCart demoProducts [⟨1, 2, 10, 6⟩] 2 =
      ⟨[⟨1, 2, 10, 6⟩, ⟨2, 1, 5, 3⟩], false⟩ := by
  have happ := addProduct_spec demoProducts [⟨1, 2, 10, 6⟩] 2
    ⟨2, "B", "", 5, 3, 4, 1, 0, "u"⟩ rfl
  refine ⟨rfl, happ.1, happ.2.1, ?_⟩
  norm_num [Pos.handleAddToCart, demoProducts]

theorem stockStep_mem_cases (products : List Product) (item : CartItem) :
    ∀ q ∈ Supabase.stockStep products item, 0 ≤ q.stock ∨ q ∈ products := by
  intro q hq
  unfold Supabase.stockStep at hq
  cases hfind : products.find? (fun p => p.id == item.product_id) with
  | none =>
    rw [hfind] at hq
    exact Or.inr hq
  | some product =>
    rw [hfind] at hq
    obtain ⟨p0, hp0, heq⟩ := List.mem_map.mp hq
    by_cases h0 : p0.id == item.product_id
    · rw [if_pos h0] at heq
      rw [← heq]
      exact Or.inl (le_max_left 0 _)
    · rw [if_neg h0] at heq
      rw [← heq]
      exact Or.inr hp0

theorem applyStockUpdates_mem_cases (saleItems : List CartItem) :
    ∀ (products : List Product) (q : Product),
      q ∈ Supabase.applyStockUpdates products saleItems →
      0 ≤ q.stock ∨ q ∈ products := by
  induction saleItems with
  | nil =>
    intro products q hq
    exact Or.inr hq
  | cons item rest ih =>
    intro products q hq
    have hq' : q ∈ Supabase.applyStockUpdates (Supabase.stockStep products item) rest := hq
    rcases ih (Supabase.stockStep products item) q hq' with h | h
    · exact Or.inl h
    · exact stockStep_mem_cases products item q h

/-- C4: the backend stock-update step of `createSale` persists, for the
fetched product row, exactly `max 0 (currentStock - quantitySold)`; and after
the whole update loop no product's stock was ever written negative — every
row either carries a clamped (hence non-negative) stock or is an original
unmodified row, for any cart quantities and any current stock values. -/
theorem backend_stock_clamped_nonneg
    (products : List Product) (saleItems : List CartItem) :
    (∀ (item : CartItem) (p : Product),
      products.find? (fun q => q.id == item.product_id) = some p →
      { p with stock := max 0 (p.stock - item.quantity) } ∈
        Supabase.stockStep products item) ∧
    (∀ q ∈ Supabase.applyStockUpdates products saleItems,
      0 ≤ q.stock ∨ q ∈ products) := by
  constructor
  · intro item p hfind
    have hp : p ∈ products := List.mem_of_find?_eq_some hfind
    have hpid : p.id = item.product_id := by
      have hb := List.find?_some hfind
      simpa using hb
    unfold Supabase.stockStep
    rw [hfind]
    have hm := List.mem_map_of_mem (fun r =>
      if r.id == item.product_id then
        { r with stock := max 0 (p.stock - item.quantity) } else r) hp
    simpa [hpid] using hm
  · exact applyStockUpdates_mem_cases saleItems products

/-- Witness for C4 at the demo data: selling 7 units of product 1 (stock 5)
persists `max 0 (5 - 7) = 0`, and the full demo-cart update leaves every row
non-negative or untouched; concretely the loop writes stocks 3 and 3. -/
theorem backend_stock_clamped_nonneg_witness :
    ({ (⟨1, "A", "", 10, 6, 5, 1, 0, "u"⟩ : Product) with
        stock := max 0 ((5 : Int) - 7) } ∈
      Supabase.stockStep demoProducts ⟨1, 7, 10, 6⟩) ∧
    (∀ q ∈ Supabase.applyStockUpdates demoProducts demoCart,
      0 ≤ q.stock ∨ q ∈ demoProducts) ∧
    Supabase.applyStockUpdates demoProducts demoCart =
      [⟨1, "A", "", 10, 6, 3, 1, 0, "u"⟩, ⟨2, "B", "", 5, 3, 3, 1, 0, "u"⟩] := by
  refine ⟨?_, (backend_stock_clamped_nonneg demoProducts demoCart).2, ?_⟩
  · exact (backend_stock_clamped_nonneg demoProducts demoCart).1
      ⟨1, 7, 10, 6⟩ ⟨1, "A", "", 10, 6, 5, 1, 0, "u"⟩ rfl
  · norm_num [Supabase.applyStockUpdates, Supabase.stockStep, demoProducts, demoCart]

/-- C6: for every named period and current instant, the sales kept by the
period filter are exactly those whose creation timestamp lies in the
half-open millisecond interval `[start, end + 1)` computed by `getDateRange`
(for the closed-ended periods `end + 1` is exactly the next midnight), and
the week-based periods start on a Sunday at midnight. -/
theorem period_filter_halfopen_sunday
    (period : String) (now : Finance.DateTime)
    (sales : List Finance.Sale) (s : Finance.Sale) :
    (s ∈ Finance.filteredSales sales period now ↔
      s ∈ sales ∧
      s.created_at ∈ Set.Ico (Finance.getDateRange period now).1.toMs
        ((Finance.getDateRange period now).2.toMs + 1)) ∧
    Finance.dayOfWeek (Finance.getDateRange "this_week" now).1.day = 0 ∧
    (Finance.getDateRange "this_week" now).1.msOfDay = 0 ∧
    Finance.dayOfWeek (Finance.getDateRange "last_week" now).1.day = 0 ∧
    (Finance.getDateRange "last_week" now).1.msOfDay = 0 := by
  have hthis : Finance.getDateRange "this_week" now =
      (⟨now.day - Finance.dayOfWeek now.day, 0⟩, now) := rfl
  have hlast : Finance.getDateRange "last_week" now =
      (⟨now.day - Finance.dayOfWeek now.day - 7, 0⟩,
       ⟨now.day - Finance.dayOfWeek now.day - 7 + 6, 86399999⟩) := rfl
  refine ⟨?_, ?_, ?_, ?_, ?_⟩
  · simp [Finance.filteredSales, List.mem_filter, Set.mem_Ico, Int.lt_add_one_iff]
  · rw [hthis]
    dsimp only
    unfold Finance.dayOfWeek
    omega
  · rw [hthis]
  · rw [hlast]
    dsimp only
    unfold Finance.dayOfWeek
    omega
  · rw [hlast]

/-- C7: over sales with non-negative amounts, the profit-margin computation
returns 0 (not an error or an undefined value) whenever total revenue is 0,
and otherwise returns `(revenue - cost) / revenue * 100`. -/
theorem margin_zero_on_zero_revenue (fs : List Finance.Sale)
    (h : ∀ s ∈ fs, 0 ≤ s.total_amount) :
    ((Finance.financialMetrics fs).totalRevenue = 0 →
      (Finance.financialMetrics fs).profitMargin = 0) ∧
    ((Finance.financialMetrics fs).totalRevenue ≠ 0 →
      (Finance.financialMetrics fs).profitMargin =
        ((Finance.financialMetrics fs).totalRevenue -
          (Finance.financialMetrics fs).totalCost) /
          (Finance.financialMetrics fs).totalRevenue * 100) := by
  have hrev : (Finance.financialMetrics fs).totalRevenue =
      (fs.map (fun s => s.total_amount)).sum := by
    simp only [Finance.financialMetrics]
    rw [foldl_add_eq_sum (fun s : Finance.Sale => s.total_amount), zero_add]
  have hnn : 0 ≤ (Finance.financialMetrics fs).totalRevenue := by
    rw [hrev]
    apply List.sum_nonneg
    intro x hx
    obtain ⟨s, hs, rfl⟩ := List.mem_map.mp hx
    exact h s hs
  constructor
  · intro h0
    simp only [Finance.financialMetrics] at h0 ⊢
    rw [if_neg (by rw [h0]; exact lt_irrefl 0)]
  · intro hne
    have hpos : 0 < (Finance.financialMetrics fs).totalRevenue :=
      lt_of_le_of_ne hnn (Ne.symm hne)
    simp only [Finance.financialMetrics] at hpos ⊢
    rw [if_pos hpos]

/-- Witness for C7: a single sale with `total_amount = 0` has total revenue 0
and the computed margin is 0 rather than a division error. -/
theorem margin_zero_on_zero_revenue_witness :
    (((Finance.financialMetrics [⟨1, 0, 0, 5, []⟩]).totalRevenue = 0 →
      (Finance.financialMetrics [⟨1, 0, 0, 5, []⟩]).profitMargin = 0) ∧
    ((Finance.financialMetrics [⟨1, 0, 0, 5, []⟩]).totalRevenue ≠ 0 →
      (Finance.financialMetrics [⟨1, 0, 0, 5, []⟩]).profitMargin =
        ((Finance.financialMetrics [⟨1, 0, 0, 5, []⟩]).totalRevenue -
          (Finance.financialMetrics [⟨1, 0, 0, 5, []⟩]).totalCost) /
          (Finance.financialMetrics [⟨1, 0, 0, 5, []⟩]).totalRevenue * 100)) ∧
    (Finance.financialMetrics [⟨1, 0, 0, 5, []⟩]).profitMargin = 0 := by
  refine ⟨margin_zero_on_zero_revenue [⟨1, 0, 0, 5, []⟩] ?_, ?_⟩
  · intro s hs
    simp at hs
    subst hs
    norm_num
  · norm_num [Finance.financialMetrics]

/-- C8: on a non-empty catalog the "new products" filter returns the first
`max(ceil(20% of size), 5)` products of the catalog sorted by creation time
descending: `min` of that count and the size many items, all from the
catalog, in non-increasing creation order, and they are the most recently
created ones — the result extends by a rest to a permutation of the whole
catalog with every rest element created no later than every returned one, so
every catalog product left out was created no later than each returned
product; on a catalog of exactly 20 products it returns exactly 5 items. -/
theorem new_products_filter_spec (ps : List Product) (h : ps ≠ []) :
    (Inventory.newProductsFilter ps).length =
      min (max ((ps.length + 4) / 5) 5) ps.length ∧
    (Inventory.newProductsFilter ps).Pairwise
      (fun a b => b.created_at ≤ a.created_at) ∧
    (∀ p ∈ Inventory.newProductsFilter ps, p ∈ ps) ∧
    (ps.length = 20 → (Inventory.newProductsFilter ps).length = 5) ∧
    (∃ rest, (Inventory.newProductsFilter ps ++ rest).Perm ps ∧
      ∀ p ∈ rest, ∀ q ∈ Inventory.newProductsFilter ps,
        p.created_at ≤ q.created_at) ∧
    (∀ p ∈ ps, p ∉ Inventory.newProductsFilter ps →
      ∀ q ∈ Inventory.newProductsFilter ps, p.created_at ≤ q.created_at) := by
  have hdef : Inventory.newProductsFilter ps =
      (ps.mergeSort fun a b => decide (b.created_at ≤ a.created_at)).take
        (max ((ps.length + 4) / 5) 5) := rfl
  have hperm := List.mergeSort_perm ps
    (fun a b => decide (b.created_at ≤ a.created_at))
  have hcount : (Inventory.newProductsFilter ps).length =
      min (max ((ps.length + 4) / 5) 5) ps.length := by
    rw [hdef, List.length_take, hperm.length_eq]
  have hsorted := @List.sorted_mergeSort Product
    (fun a b : Product => decide (b.created_at ≤ a.created_at))
    (fun a b c hab hbc => by
      simp only [decide_eq_true_eq] at hab hbc ⊢
      omega)
    (fun a b => by
      simp only [Bool.or_eq_true, decide_eq_true_eq]
      omega) ps
  have hsorted2 : (ps.mergeSort fun a b =>
      decide (b.created_at ≤ a.created_at)).Pairwise
      (fun a b : Product => b.created_at ≤ a.created_at) :=
    hsorted.imp (fun hab => by simpa using hab)
  have hsplit := List.take_append_drop (max ((ps.length + 4) / 5) 5)
    (ps.mergeSort fun a b => decide (b.created_at ≤ a.created_at))
  have hcross : ∀ q ∈ (ps.mergeSort fun a b =>
        decide (b.created_at ≤ a.created_at)).take
        (max ((ps.length + 4) / 5) 5),
      ∀ p ∈ (ps.mergeSort fun a b =>
        decide (b.created_at ≤ a.created_at)).drop
        (max ((ps.length + 4) / 5) 5),
      p.created_at ≤ q.created_at := by
    have hpw := hsorted2
    rw [← hsplit] at hpw
    exact fun q hq p hp => (List.pairwise_append.mp hpw).2.2 q hq p hp
  refine ⟨hcount, ?_, ?_, ?_, ?_, ?_⟩
  · rw [hdef]
    exact hsorted2.sublist (List.take_sublist _ _)
  · intro p hp
    rw [hdef] at hp
    exact hperm.subset (List.take_subset _ _ hp)
  · intro h20
    rw [hcount, h20]
    decide
  · refine ⟨(ps.mergeSort fun a b => decide (b.created_at ≤ a.created_at)).drop
        (max ((ps.length + 4) / 5) 5), ?_, ?_⟩
    · rw [hdef, hsplit]
      exact hperm
    · intro p hp q hq
      rw [hdef] at hq
      exact hcross q hq p hp
  · intro p hp hnot q hq
    have hpS : p ∈ ps.mergeSort fun a b => decide (b.created_at ≤ a.created_at) :=
      hperm.symm.subset hp
    rw [← hsplit] at hpS
    rcases List.mem_append.mp hpS with hin | hin
    · exact absurd (by rw [hdef]; exact hin) hnot
    · rw [hdef] at hq
      exact hcross q hq p hin

/-- Witness for C8: the 20-product demo catalog is non-empty and the filter
returns exactly `min (max ((20 + 4) / 5) 5) 20 = 5` items, the most recently
created ones of the catalog. -/
theorem new_products_filter_spec_witness :
    ((Inventory.newProductsFilter demoCatalog).length =
      min (max ((demoCatalog.length + 4) / 5) 5) demoCatalog.length ∧
    (Inventory.newProductsFilter demoCatalog).Pairwise
      (fun a b => b.created_at ≤ a.created_at) ∧
    (∀ p ∈ Inventory.newProductsFilter demoCatalog, p ∈ demoCatalog) ∧
    (demoCatalog.length = 20 →
      (Inventory.newProductsFilter demoCatalog).length = 5) ∧
    (∃ rest, (Inventory.newProductsFilter demoCatalog ++ rest).Perm demoCatalog ∧
      ∀ p ∈ rest, ∀ q ∈ Inventory.newProductsFilter demoCatalog,
        p.created_at ≤ q.created_at) ∧
    (∀ p ∈ demoCatalog, p ∉ Inventory.newProductsFilter demoCatalog →
      ∀ q ∈ Inventory.newProductsFilter demoCatalog,
        p.created_at ≤ q.created_at)) ∧
    (Inventory.newProductsFilter demoCatalog).length = 5 := by
  have happ := new_products_filter_spec demoCatalog (by simp [demoCatalog])
  exact ⟨happ, happ.2.2.2.1 (by simp [demoCatalog])⟩

theorem includesAux_upload_failed_prefix (t : List Char) :
    ProductForm.includesAux "placeholder".toList
      ("https://placehold.co/300x300/e2e8f0/64748b?text=Upload+Failed:+".toList
        ++ t) =
      ProductForm.includesAux "placeholder".toList t := by
  simp [ProductForm.includesAux, List.isPrefixOf, String.toList]

/-- C9: every failing image upload produces a generated placeholder URL, and
the product form's submit gate lets that URL through — the product
create/update proceeds with the placeholder URL instead of aborting (for the
exhausted-retries URL, provided the encoded error text does not itself
contain the substring `placeholder`, which percent-encoding of a backend
message cannot introduce). -/
theorem upload_failure_placeholder_save_proceeds
    (filename encodedMsg : String)
    (hmsg : ProductForm.strIncludes encodedMsg "placeholder" = false) :
    (Supabase.uploadProductImage .uploadErr filename =
      Supabase.getPlaceholderImageUrl filename) ∧
    (Supabase.uploadProductImage .noPublicUrl filename =
      Supabase.getPlaceholderImageUrl filename) ∧
    (ProductForm.handleSubmitImageGate
        (Supabase.uploadProductImage .uploadErr filename) =
      .savedWith (Supabase.getPlaceholderImageUrl filename)) ∧
    (ProductForm.handleSubmitImageGate
        (Supabase.uploadProductImage .noPublicUrl filename) =
      .savedWith (Supabase.getPlaceholderImageUrl filename)) ∧
    (ProductForm.handleSubmitImageGate
        (Supabase.uploadProductImage (.thrown encodedMsg) filename) =
      .savedWith (Supabase.uploadProductImage (.thrown encodedMsg) filename)) := by
  have hbeq :
      (("https://placehold.co/300x300/e2e8f0/64748b?text=Upload+Failed:+"
        ++ encodedMsg) == "") = false := by
    rw [beq_eq_false_iff_ne]
    intro hcontra
    have hlist := congrArg String.toList hcontra
    simp only [String.toList] at hlist
    rw [String.data_append] at hlist
    simp at hlist
  have hinc : ProductForm.strIncludes
      ("https://placehold.co/300x300/e2e8f0/64748b?text=Upload+Failed:+"
        ++ encodedMsg) "placeholder" = false := by
    unfold ProductForm.strIncludes at hmsg ⊢
    simp only [String.toList] at hmsg ⊢
    rw [String.data_append]
    have hlift := includesAux_upload_failed_prefix encodedMsg.data
    simp only [String.toList] at hlift
    rw [hlift]
    exact hmsg
  have hconst : Supabase.getPlaceholderImageUrl filename =
      "https://placehold.co/300x300/e2e8f0/64748b?text=Product+Image" := rfl
  have hplaceholder : ∀ outcome : Supabase.UploadBackend,
      Supabase.uploadProductImage outcome filename =
        Supabase.getPlaceholderImageUrl filename →
      ProductForm.handleSubmitImageGate
        (Supabase.uploadProductImage outcome filename) =
        .savedWith (Supabase.getPlaceholderImageUrl filename) := by
    intro outcome heq
    rw [heq, hconst]
    decide
  refine ⟨rfl, rfl, hplaceholder _ rfl, hplaceholder _ rfl, ?_⟩
  show ProductForm.handleSubmitImageGate
      ("https://placehold.co/300x300/e2e8f0/64748b?text=Upload+Failed:+"
        ++ encodedMsg) = _
  unfold ProductForm.handleSubmitImageGate
  rw [hbeq, hinc]
  simp [Supabase.uploadProductImage]

/-- Witness for C9: for the filename `photo.png` and the encoded message
`Unknown%20error` the three failure paths all hand the form a placeholder URL
and the save proceeds with it. -/
theorem upload_failure_placeholder_save_proceeds_witness :
    (ProductForm.strIncludes "Unknown%20error" "placeholder" = false) ∧
    ((Supabase.uploadProductImage .uploadErr "photo.png" =
      Supabase.getPlaceholderImageUrl "photo.png") ∧
    (Supabase.uploadProductImage .noPublicUrl "photo.png" =
      Supabase.getPlaceholderImageUrl "photo.png") ∧
    (ProductForm.handleSubmitImageGate
        (Supabase.uploadProductImage .uploadErr "photo.png") =
      .savedWith (Supabase.getPlaceholderImageUrl "photo.png")) ∧
    (ProductForm.handleSubmitImageGate
        (Supabase.uploadProductImage .noPublicUrl "photo.png") =
      .savedWith (Supabase.getPlaceholderImageUrl "photo.png")) ∧
    (ProductForm.handleSubmitImageGate
        (Supabase.uploadProductImage (.thrown "Unknown%20error") "photo.png") =
      .savedWith (Supabase.uploadProductImage
        (.thrown "Unknown%20error") "photo.png"))) ∧
    Supabase.getPlaceholderImageUrl "photo.png" =
      "https://placehold.co/300x300/e2e8f0/64748b?text=Product+Image" := by
  exact ⟨by decide,
    upload_failure_placeholder_save_proceeds "photo.png" "Unknown%20error"
      (by decide), rfl⟩
